import Mathlib

/-!
Verification of the splink launch-fetching bot core (src/src/commands.rs):
the scraper `fetch_launches`, the card renderer `to_embed`, and the
pagination controller of the `fetch` command, shallowly embedded in Lean.

HTML documents are abstracted to the data the four hard-coded CSS
selectors extract from each `.mdl-card` element; `chrono`'s
`NaiveDateTime::parse_from_str` with the fixed format
`"%a %b %d, %Y %H:%M %Z"` is modelled by an explicit parser
(`parse_time`); Discord message payloads are modelled by the `Embed`
structure holding exactly the components the code sets.
-/

namespace Splink

/-- One scraped launch (struct `FlightData` in commands.rs).
`time` is the UTC instant as UNIX seconds: the code stores a
`DateTime<Utc>` and only ever observes it through `.timestamp()`,
and the parsed times have whole-minute resolution. -/
structure FlightData where
  name : String
  time : Int
  launch_site : String
  details : String
deriving Repr, DecidableEq

/-- One labelled field of a Discord embed: (name, value, inline). -/
structure EmbedField where
  name : String
  value : String
  inline : Bool
deriving Repr, DecidableEq

/-- The components of a `CreateEmbed` that `to_embed` sets. -/
structure Embed where
  footer : Option String := none
  fields : List EmbedField := []
  title : Option String := none
  url : Option String := none
  color : Option Nat := none
deriving Repr, DecidableEq

/-- `FlightData::formatted_time`: the Discord timestamp token
`<t:{unix seconds}:F>`. -/
def FlightData.formatted_time (fd : FlightData) : String :=
  "<t:" ++ toString fd.time ++ ":F>"

/-- `FlightData::to_embed`: render one launch as a card, with the 1-based
counter in the title. -/
def FlightData.to_embed (fd : FlightData) (counter : Nat) : Embed :=
  { footer := some "Via NextSpaceflight"
    fields := [ { name := "Time", value := fd.formatted_time, inline := false },
                { name := "Launch Site", value := fd.launch_site, inline := false } ]
    title := some ("#" ++ toString counter ++ " | " ++ fd.name.trim)
    url := some ("https://nextspaceflight.com" ++ fd.details)
    color := some 0xFFFFFF }

/-! Time parsing.

`parse_time` in commands.rs is
`NaiveDateTime::parse_from_str(s, "%a %b %d, %Y %H:%M %Z")` followed by
`DateTime::from_naive_utc_and_offset(t, Utc)`: the parsed naive fields are
read off as a UTC instant. The model below follows chrono's parsing of
that fixed format item by item: `%a` and `%b` read three ASCII letters
case-insensitively; a space in the format skips any run of whitespace;
`%d`, `%H`, `%M` read one or two digits and `%Y` one to four digits
(negative years never occur upstream and are not modelled); literal `,`
and `:` must match exactly; `%Z` consumes a run of non-whitespace
characters and discards it; trailing input is an error. chrono then
validates the calendar date, requires hour < 24 and minute < 60, and
rejects the string when the parsed weekday disagrees with the weekday of
the parsed date. The result is the UNIX-seconds timestamp of the naive
date-time taken as UTC. -/

/-- ASCII lower-casing of one character. -/
def asciiLower (c : Char) : Char :=
  if 'A' ≤ c ∧ c ≤ 'Z' then Char.ofNat (c.toNat + 32) else c

/-- Read a three-letter name and give its index in `names`
(case-insensitive, as chrono's short weekday/month scan). -/
def scanName (names : List (List Char)) : List Char → Option (Nat × List Char)
  | c1 :: c2 :: c3 :: rest =>
    match List.findIdx? (fun n => n == [asciiLower c1, asciiLower c2, asciiLower c3]) names with
    | some i => some (i, rest)
    | none => none
  | _ => none

/-- Accumulate at most `fuel` further digits onto `acc`. -/
def scanNumAux : Nat → Nat → List Char → Nat × List Char
  | 0, acc, s => (acc, s)
  | _ + 1, acc, [] => (acc, [])
  | fuel + 1, acc, c :: rest =>
    if c.isDigit then scanNumAux fuel (acc * 10 + (c.toNat - 48)) rest
    else (acc, c :: rest)

/-- Read one to `maxDigits` decimal digits (chrono's numeric scan). -/
def scanNum (maxDigits : Nat) : List Char → Option (Nat × List Char)
  | [] => none
  | c :: rest =>
    if c.isDigit then some (scanNumAux (maxDigits - 1) (c.toNat - 48) rest)
    else none

/-- Match one literal character. -/
def scanLit (c : Char) : List Char → Option (List Char)
  | [] => none
  | c2 :: rest => if c2 = c then some rest else none

/-- Skip a (possibly empty) run of whitespace, as a space in a chrono
format string does. -/
def skipWs (s : List Char) : List Char :=
  List.dropWhile Char.isWhitespace s

/-- Short weekday names, Sunday first. -/
def weekdayNames : List (List Char) :=
  [ "sun", "mon", "tue", "wed", "thu", "fri", "sat" ].map String.data

/-- Short month names, January first. -/
def monthNames : List (List Char) :=
  [ "jan", "feb", "mar", "apr", "may", "jun",
    "jul", "aug", "sep", "oct", "nov", "dec" ].map String.data

/-- Gregorian leap-year test. -/
def isLeapYear (y : Nat) : Bool :=
  y % 4 = 0 && (y % 100 ≠ 0 || y % 400 = 0)

/-- Length of month `m` (1-based) in year `y`. -/
def daysInMonth (y m : Nat) : Nat :=
  if m = 2 then (if isLeapYear y then 29 else 28)
  else if m = 4 ∨ m = 6 ∨ m = 9 ∨ m = 11 then 30
  else 31

/-- Day count of `y`-`m`-`d` measured from the civil era base shifted by
400 years, so the computation stays in `Nat` (days-from-civil algorithm). -/
def civilDayAux (y m d : Nat) : Nat :=
  let ys := y + 400
  let y1 := if m ≤ 2 then ys - 1 else ys
  let era := y1 / 400
  let yoe := y1 - era * 400
  let mp := if m > 2 then m - 3 else m + 9
  let doy := (153 * mp + 2) / 5 + d - 1
  let doe := yoe * 365 + yoe / 4 - yoe / 100 + doy
  era * 146097 + doe

/-- Days of `y`-`m`-`d` since the UNIX epoch 1970-01-01 (shift of
`civilDayAux`: 719468 + 146097 = 865565). -/
def epochDay (y m d : Nat) : Int :=
  (civilDayAux y m d : Int) - 865565

/-- Weekday of `y`-`m`-`d`, Sunday = 0 (1970-01-01 is a Thursday, and
865565 ≡ 1 [MOD 7]). -/
def weekdayOf (y m d : Nat) : Nat :=
  (civilDayAux y m d + 3) % 7

/-- Model of `parse_time` in commands.rs: chrono's parse of the fixed
format `"%a %b %d, %Y %H:%M %Z"`, the result read as UNIX seconds of the
naive date-time interpreted as UTC (the `%Z` token is consumed but never
contributes to the value). `none` is chrono's parse error. -/
def parse_time (time_str : String) : Option Int := do
  let (w, r1) ← scanName weekdayNames time_str.data
  let (mon, r2) ← scanName monthNames (skipWs r1)
  let (d, r3) ← scanNum 2 (skipWs r2)
  let r4 ← scanLit ',' r3
  let (y, r5) ← scanNum 4 (skipWs r4)
  let (h, r6) ← scanNum 2 (skipWs r5)
  let r7 ← scanLit ':' r6
  let (mi, r8) ← scanNum 2 r7
  let r9 := List.dropWhile (fun c => !c.isWhitespace) (skipWs r8)
  if ¬ r9.isEmpty then none
  else if h ≥ 24 ∨ mi ≥ 60 then none
  else if d = 0 ∨ d > daysInMonth y (mon + 1) then none
  else if weekdayOf y (mon + 1) d ≠ w then none
  else some (epochDay y (mon + 1) d * 86400 + (h : Int) * 3600 + (mi : Int) * 60)

/-! The scraper.

`fetch_launches` iterates over the elements matching `.mdl-card` and for
each one looks at: the text runs of its first `.mdl-card__supporting-text`
descendant, the text runs of its first `h5.header-style` descendant, and
the `href` attribute of its first `.mdc-button` descendant. An `MdlCard`
records exactly those observations; `none` at the outer level means the
descendant does not exist, and `some none` for `detailsHref` means the
button exists but carries no `href`. -/

/-- What the scraper can see of one `.mdl-card` element. -/
structure MdlCard where
  supportingText : Option (List String)
  headerText : Option (List String)
  detailsHref : Option (Option String)
deriving Repr, DecidableEq

/-- Body of the `filter_map` closure in `fetch_launches`: `none` is the
Rust `None` (the card is dropped). -/
def processCard (c : MdlCard) : Option FlightData :=
  match c.supportingText with
  | none => none
  | some launch_data =>
    if launch_data.length ≠ 4 then none else
    match launch_data with
    | [_, t1, _, s3] =>
      match parse_time t1 with
      | none => none
      | some time =>
        match c.headerText with
        | none => none
        | some hts =>
          match hts.head? with
          | none => none
          | some name =>
            match c.detailsHref with
            | none => none
            | some none => none
            | some (some details) =>
              some { name := name, launch_site := s3, time := time, details := details }
    | _ => none

/-- `fetch_launches`, given the `.mdl-card` elements of the fetched
document in document order (the network fetch is abstracted away; the
`.map(Ok).collect()` of the source never fails). -/
def fetch_launches (document : List MdlCard) : List FlightData :=
  document.filterMap processCard

/-! The pagination controller (`fetch` command). -/

/-- The Next button id `"{ctx_id}next"` (ctx.id() is a u64). -/
def nextButtonId (ctx_id : Nat) : String :=
  toString ctx_id ++ "next"

/-- The Previous button id `"{ctx_id}previous"`. -/
def prevButtonId (ctx_id : Nat) : String :=
  toString ctx_id ++ "previous"

/-- The collector filter of the `fetch` command:
`press.data.custom_id.starts_with(&ctx_id.to_string())` - a prefix test
on the character sequence. -/
def sessionFilter (ctx_id : Nat) (custom_id : String) : Bool :=
  List.isPrefixOf (toString ctx_id).data custom_id.data

/-- One turn of the `match press.data.custom_id.as_str()` in the loop:
the Next arm is `(page_num + 1) % total`, the Previous arm is
`page_num.checked_sub(1).unwrap_or(total - 1)`, anything else leaves
`page_num`. -/
def pageStep (next_button_id prev_button_id : String) (total page_num : Nat)
    (custom_id : String) : Nat :=
  if custom_id = next_button_id then (page_num + 1) % total
  else if custom_id = prev_button_id then
    match page_num with
    | 0 => total - 1
    | Nat.succ k => k
  else page_num

/-- The collector loop over the presses that passed the filter: each press
updates `page_num` by `pageStep` and dispatches an edit carrying
`embed_pages[page_num]`. `none` models the out-of-bounds panic of that
indexing; otherwise the emitted edits and the final index are returned. -/
def runLoop (pages : List Embed) (nid pid : String) :
    List String → Nat → Option (List Embed × Nat)
  | [], page_num => some ([], page_num)
  | cid :: rest, page_num =>
    let next_page := pageStep nid pid pages.length page_num cid
    match pages.get? next_page with
    | none => none
    | some e =>
      match runLoop pages nid pid rest next_page with
      | none => none
      | some (es, fin) => some (e :: es, fin)

/-- Result of one `fetch` invocation: either an index panic, or the
initial embed, the edits dispatched for the accepted presses, and the
final page index. -/
inductive FetchOutcome where
  | panicked
  | ok (initial : Embed) (edits : List Embed) (finalIndex : Nat)
deriving Repr, DecidableEq

/-- The body of the `fetch` command after a successful scrape, on the
given document and the stream of button presses (as custom_id strings)
arriving before the timeout: render all pages, index `embed_pages[0]` for
the initial reply (a panic when the list is empty), filter the presses by
`sessionFilter`, then run the loop from `page_num = 0`. -/
def fetchHandler (ctx_id : Nat) (document : List MdlCard)
    (presses : List String) : FetchOutcome :=
  let launches := fetch_launches document
  let embed_pages := launches.enum.map (fun p => p.2.to_embed (p.1 + 1))
  match embed_pages.get? 0 with
  | none => .panicked
  | some first =>
    let accepted := presses.filter (sessionFilter ctx_id)
    match runLoop embed_pages (nextButtonId ctx_id) (prevButtonId ctx_id) accepted 0 with
    | none => .panicked
    | some (edits, fin) => .ok first edits fin

/-! Sample inputs used by witnesses and counterexamples. -/

/-- A card carrying all four pieces, with a valid time string. -/
def sampleCard : MdlCard :=
  { supportingText := some ["run0", "Wed Aug 07, 2024 01:33 UTC", "run2", "Cape Canaveral"]
    headerText := some ["Starlink"]
    detailsHref := some (some "/launches/details/123") }

/-- A card whose button carries an empty href attribute. -/
def emptyHrefCard : MdlCard :=
  { supportingText := some ["run0", "Wed Aug 07, 2024 01:33 UTC", "run2", "Starbase"]
    headerText := some ["IFT-5"]
    detailsHref := some (some "") }

/-- A card whose supporting-text block has only three text runs. -/
def threeRunCard : MdlCard :=
  { supportingText := some ["run0", "run1", "run2"]
    headerText := some ["X"]
    detailsHref := some (some "/d") }

/-- An arbitrary rendered page. -/
def samplePage : Embed :=
  { title := some "#1 | A" }

/-- The record scraped from `sampleCard`. -/
def sampleFlight : FlightData :=
  { name := "Starlink", time := 1722994380,
    launch_site := "Cape Canaveral", details := "/launches/details/123" }

/-! Helper lemmas. -/

/-- The two button ids of one invocation differ (their suffixes have
different lengths). -/
theorem nextButtonId_ne_prevButtonId (ctx_id : Nat) :
    nextButtonId ctx_id ≠ prevButtonId ctx_id := by
  intro h
  have hlen := congrArg String.length h
  simp only [nextButtonId, prevButtonId, String.length_append] at hlen
  exact absurd (Nat.add_left_cancel hlen) (by decide)

/-- `dropWhile` is the identity when no element satisfies the predicate. -/
theorem dropWhile_eq_self_of_not {p : Char → Bool} {l : List Char}
    (h : ∀ c ∈ l, p c = false) : l.dropWhile p = l := by
  cases l with
  | nil => rfl
  | cons c cs =>
    rw [List.dropWhile_cons, h c (List.mem_cons_self c cs)]
    simp

/-- Reducing the left summand modulo `n` does not change a sum modulo `n`. -/
theorem emod_add_cancel (x y n : Int) : (x % n + y) % n = (x + y) % n := by
  conv_lhs => rw [Int.add_emod, Int.emod_emod_of_dvd _ dvd_rfl, ← Int.add_emod]

/-- Value of the Next arm of `pageStep`. -/
theorem pageStep_next_arm (nid pid : String) (total i : Nat) :
    pageStep nid pid total i nid = (i + 1) % total := by
  unfold pageStep
  rw [if_pos rfl]

/-- Value of the Previous arm of `pageStep`. -/
theorem pageStep_prev_arm (nid pid : String) (hpn : pid ≠ nid) (total i : Nat) :
    pageStep nid pid total i pid
      = match i with | 0 => total - 1 | Nat.succ k => k := by
  unfold pageStep
  rw [if_neg hpn, if_pos rfl]

/-- Value of `pageStep` on an unrecognized custom id. -/
theorem pageStep_other_arm (nid pid : String) (total i : Nat) (cid : String)
    (h1 : cid ≠ nid) (h2 : cid ≠ pid) :
    pageStep nid pid total i cid = i := by
  unfold pageStep
  rw [if_neg h1, if_neg h2]

/-- One loop turn keeps the page index below the page count. -/
theorem pageStep_lt (nid pid : String) {total page_num : Nat} (cid : String)
    (htot : 0 < total) (h : page_num < total) :
    pageStep nid pid total page_num cid < total := by
  unfold pageStep
  by_cases h1 : cid = nid
  · rw [if_pos h1]
    exact Nat.mod_lt _ htot
  · rw [if_neg h1]
    by_cases h2 : cid = pid
    · rw [if_pos h2]
      cases page_num with
      | zero => show total - 1 < total; omega
      | succ k => show k < total; omega
    · rw [if_neg h2]
      exact h

/-- The loop index stays below the page count from any in-range start. -/
theorem foldl_pageStep_lt (nid pid : String) {total : Nat} (htot : 0 < total) :
    ∀ (presses : List String) (i : Nat), i < total →
      List.foldl (pageStep nid pid total) i presses < total := by
  intro presses
  induction presses with
  | nil => intro i hi; simpa using hi
  | cons c rest ih =>
    intro i hi
    exact ih _ (pageStep_lt nid pid c htot hi)

/-- A Next press maps an in-range index `i` to `(i + 1) mod total`. -/
theorem pageStep_next_eq (nid pid : String) {total i : Nat} (hi : i < total) :
    pageStep nid pid total i nid = (((i : Int) + 1) % (total : Int)).toNat := by
  have hcast : (((i + 1) % total : Nat) : Int) = ((i : Int) + 1) % (total : Int) := by
    push_cast
    ring_nf
  rw [pageStep_next_arm]
  omega

/-- A Previous press maps an in-range index `i` to `(i - 1) mod total`,
wrapping from 0 to `total - 1`. -/
theorem pageStep_prev_eq (nid pid : String) (hne : nid ≠ pid) {total i : Nat}
    (hi : i < total) :
    pageStep nid pid total i pid = (((i : Int) - 1) % (total : Int)).toNat := by
  have hpn : pid ≠ nid := fun h => hne h.symm
  rw [pageStep_prev_arm nid pid hpn]
  cases i with
  | zero =>
    have h1 : ((0 : Int) - 1) % (total : Int) = (total : Int) - 1 := by
      have h2 : ((0 : Int) - 1) = ((total : Int) - 1) + (total : Int) * (-1) := by ring
      rw [h2, Int.add_mul_emod_self_left, Int.emod_eq_of_lt (by omega) (by omega)]
    show total - 1 = ((((0 : Nat) : Int) - 1) % (total : Int)).toNat
    rw [show (((0 : Nat) : Int) - 1) = ((0 : Int) - 1) by push_cast; try ring, h1]
    omega
  | succ k =>
    have h1 : (((k : Int) + 1) - 1) % (total : Int) = (k : Int) := by
      rw [show (((k : Int) + 1) - 1) = (k : Int) by ring,
        Int.emod_eq_of_lt (by omega) (by omega)]
    show k = ((((Nat.succ k : Nat) : Int) - 1) % (total : Int)).toNat
    rw [show (((Nat.succ k : Nat) : Int) - 1) = (((k : Int) + 1) - 1) by push_cast; try ring, h1]
    omega

/-- Reducing the left operand of a sum-and-difference modulo `n` does not
change the result modulo `n`. -/
theorem emod_add_sub_cancel (x u v n : Int) :
    (x % n + u - v) % n = (x + u - v) % n := by
  rw [show x % n + u - v = x % n + (u - v) by ring, emod_add_cancel,
    show x + (u - v) = x + u - v by ring]

theorem foldl_pageStep_count (nid pid : String) (hne : nid ≠ pid)
    {total : Nat} (htot : 0 < total) :
    ∀ (presses : List String) (i : Nat), i < total →
      (∀ c ∈ presses, c = nid ∨ c = pid) →
      List.foldl (pageStep nid pid total) i presses
        = (((i : Int) + List.count nid presses - List.count pid presses)
            % (total : Int)).toNat := by
  intro presses
  induction presses with
  | nil =>
    intro i hi _
    simp only [List.foldl_nil, List.count_nil, Nat.cast_zero]
    rw [show ((i : Int) + 0 - 0) = (i : Int) by ring,
      Int.emod_eq_of_lt (by omega) (by omega)]
    omega
  | cons c rest ih =>
    intro i hi hm
    have hrest : ∀ x ∈ rest, x = nid ∨ x = pid :=
      fun x hx => hm x (List.mem_cons_of_mem c hx)
    have hpn : pid ≠ nid := fun h => hne h.symm
    rcases hm c (List.mem_cons_self c rest) with hc | hc
    · rw [List.foldl_cons, hc, List.count_cons_self,
        List.count_cons_of_ne hpn rest, pageStep_next_arm]
      have hlt : (i + 1) % total < total := Nat.mod_lt _ htot
      rw [ih _ hlt hrest]
      congr 1
      have hcast : (((i + 1) % total : Nat) : Int) = ((i : Int) + 1) % (total : Int) := by
        push_cast
        ring_nf
      rw [hcast, emod_add_sub_cancel]
      congr 1
      push_cast
      ring
    · rw [List.foldl_cons, hc, List.count_cons_self,
        List.count_cons_of_ne hne rest, pageStep_prev_eq nid pid hne hi]
      have hemod_lt : ((i : Int) - 1) % (total : Int) < (total : Int) :=
        Int.emod_lt_of_pos _ (by omega)
      have hemod_nn : 0 ≤ ((i : Int) - 1) % (total : Int) :=
        Int.emod_nonneg _ (by omega)
      have hlt : (((i : Int) - 1) % (total : Int)).toNat < total := by omega
      rw [ih _ hlt hrest]
      congr 1
      have hcast : ((((i : Int) - 1) % (total : Int)).toNat : Int)
          = ((i : Int) - 1) % (total : Int) := by omega
      rw [hcast, emod_add_sub_cancel]
      congr 1
      push_cast
      ring

/-- Inversion for `processCard`: a surviving record is assembled from a
four-run supporting-text block whose run 1 parses as a time and whose
run 3 is the site, a header element with a first text run, and a present
`href` attribute. -/
theorem processCard_some (c : MdlCard) (r : FlightData)
    (h : processCard c = some r) :
    ∃ a t b s, c.supportingText = some [a, t, b, s] ∧
      parse_time t = some r.time ∧ r.launch_site = s ∧
      ∃ hts, c.headerText = some hts ∧ hts.head? = some r.name ∧
        c.detailsHref = some (some r.details) := by
  unfold processCard at h
  split at h
  next => exact Option.noConfusion h
  next ld hsup =>
    split at h
    next => exact Option.noConfusion h
    next hlen =>
      split at h
      next a t b s =>
        split at h
        next => exact Option.noConfusion h
        next time hpt =>
          split at h
          next => exact Option.noConfusion h
          next hts hht =>
            split at h
            next => exact Option.noConfusion h
            next name hhd =>
              split at h
              next => exact Option.noConfusion h
              next => exact Option.noConfusion h
              next details hdet =>
                injection h with h2
                subst h2
                exact ⟨a, t, b, s, hsup, hpt, rfl, hts, hht, hhd, hdet⟩
      next => exact Option.noConfusion h

/-- The filter of one session accepts a press exactly when the session's
invocation-id string is a prefix of the press's custom id. -/
theorem sessionFilter_eq_true_iff (ctx_id : Nat) (cid : String) :
    sessionFilter ctx_id cid = true ↔ (toString ctx_id).data <+: cid.data :=
  List.isPrefixOf_iff_prefix

/-- The loop never hits the out-of-bounds branch when it starts in range
on a non-empty page list. -/
theorem runLoop_isSome (pages : List Embed) (nid pid : String)
    (htot : 0 < pages.length) :
    ∀ (presses : List String) (i : Nat), i < pages.length →
      ∃ es fin, runLoop pages nid pid presses i = some (es, fin) := by
  intro presses
  induction presses with
  | nil => intro i _; exact ⟨[], i, rfl⟩
  | cons c rest ih =>
    intro i hi
    have hlt : pageStep nid pid pages.length i c < pages.length :=
      pageStep_lt nid pid c htot hi
    obtain ⟨es, fin, hr⟩ := ih _ hlt
    refine ⟨pages.get ⟨_, hlt⟩ :: es, fin, ?_⟩
    simp only [runLoop, List.get?_eq_get hlt, hr]

/-! The claims. -/

/-- Claim C1 (code-bug evidence): when the scrape succeeds with an empty
launch list, the `fetch` handler reaches the unconditional indexing
`embed_pages[0]` of the initial reply and panics: no user-facing
"no launches" error is produced and no paginator session is started. -/
theorem fetch_empty_panics (ctx_id : Nat) (presses : List String) :
    fetchHandler ctx_id [] presses = FetchOutcome.panicked := rfl

/-- Claim C2 (counterexample): sessions with the distinct invocation ids
1 and 12 are both live, and the press with custom id `"12next"` - which
begins with session 1's invocation-id prefix, and is in fact session 12's
own Next button - is accepted by session 12's filter. So a press whose
custom id begins with A's invocation id can be accepted by B's filter. -/
theorem scope_isolation_cex :
    (1 : Nat) ≠ 12 ∧ sessionFilter 1 "12next" = true ∧
      sessionFilter 12 "12next" = true ∧ "12next" = nextButtonId 12 :=
  ⟨by decide, by decide, by decide, by decide⟩

/-- Claim C2 (amended): a session's filter accepts exactly the custom ids
extending its own invocation-id decimal string, so for two sessions
neither of whose id strings is a prefix of the other's, a press whose
custom id begins with A's id string is rejected by B's filter. -/
theorem scope_isolation_amended (a b : Nat) (cid : String)
    (hpa : ¬ (toString a).data <+: (toString b).data)
    (hpb : ¬ (toString b).data <+: (toString a).data)
    (hA : sessionFilter a cid = true) :
    sessionFilter b cid = false := by
  rw [sessionFilter_eq_true_iff] at hA
  rw [← Bool.not_eq_true, sessionFilter_eq_true_iff]
  intro hB
  rcases List.prefix_or_prefix_of_prefix hA hB with h | h
  · exact hpa h
  · exact hpb h

/-- Witness for the amended claim C2 at ids 1 and 2 and the press
`"1next"`. -/
theorem scope_isolation_amended_witness :
    sessionFilter 2 "1next" = false :=
  scope_isolation_amended 1 2 "1next" (by decide) (by decide) (by decide)

/-- Claim C3: over `N ≥ 1` cards, a Next press maps an in-range index `i`
to `(i + 1) mod N`, a Previous press maps it to `(i - 1) mod N` wrapping
from 0 to `N - 1`, and from index 0 any sequence of `a` Next and `b`
Previous presses ends at `(a - b) mod N`. -/
theorem pagination_ring_law (ctx_id N : Nat) (hN : 0 < N) :
    (∀ i, i < N →
        pageStep (nextButtonId ctx_id) (prevButtonId ctx_id) N i (nextButtonId ctx_id)
          = (((i : Int) + 1) % (N : Int)).toNat)
  ∧ (∀ i, i < N →
        pageStep (nextButtonId ctx_id) (prevButtonId ctx_id) N i (prevButtonId ctx_id)
          = (((i : Int) - 1) % (N : Int)).toNat)
  ∧ ∀ presses : List String,
      (∀ c ∈ presses, c = nextButtonId ctx_id ∨ c = prevButtonId ctx_id) →
      List.foldl (pageStep (nextButtonId ctx_id) (prevButtonId ctx_id) N) 0 presses
        = (((List.count (nextButtonId ctx_id) presses : Int)
            - (List.count (prevButtonId ctx_id) presses : Int)) % (N : Int)).toNat := by
  have hne := nextButtonId_ne_prevButtonId ctx_id
  refine ⟨fun i hi => pageStep_next_eq _ _ hi,
    fun i hi => pageStep_prev_eq _ _ hne hi, fun presses hm => ?_⟩
  have h := foldl_pageStep_count _ _ hne hN presses 0 hN hm
  simpa using h

/-- Witness for claim C3: two Next presses and one Previous press over
three cards end at page (2 - 1) mod 3 = 1. -/
theorem pagination_ring_law_witness :
    0 < 3 ∧ List.foldl (pageStep (nextButtonId 7) (prevButtonId 7) 3) 0
      [nextButtonId 7, nextButtonId 7, prevButtonId 7] = 1 := by
  refine ⟨by decide, ?_⟩
  have h := (pagination_ring_law 7 3 (by decide)).2.2
    [nextButtonId 7, nextButtonId 7, prevButtonId 7] (by decide)
  rw [h]
  decide

/-- Claim C4: over `N ≥ 1` cards, starting from index 0, the page index
remains in `[0, N)` after every button event - Next, Previous, or an
unrecognized custom id alike. -/
theorem index_invariant (ctx_id N : Nat) (hN : 0 < N) (presses : List String) :
    List.foldl (pageStep (nextButtonId ctx_id) (prevButtonId ctx_id) N) 0 presses < N :=
  foldl_pageStep_lt _ _ hN presses 0 hN

/-- Witness for claim C4 with a press mix including an unrecognized id. -/
theorem index_invariant_witness :
    0 < 2 ∧ List.foldl (pageStep (nextButtonId 5) (prevButtonId 5) 2) 0
      ["5bogus", prevButtonId 5, nextButtonId 5] < 2 :=
  ⟨by decide, index_invariant 5 2 (by decide) ["5bogus", prevButtonId 5, nextButtonId 5]⟩

/-- Claim C5 (counterexample): a card whose details button carries an
empty `href=""` has every piece present, survives parsing, and is
returned with an empty `details_path` - surviving records can have empty
fields. -/
theorem scraper_nonempty_fields_cex :
    fetch_launches [emptyHrefCard]
      = [{ name := "IFT-5", time := 1722994380, launch_site := "Starbase",
           details := "" }] := by
  decide

/-- Claim C5 (amended): every record returned by the scraper is assembled
from pieces that are all present and parse - a four-run supporting-text
block whose run 1 parses as a time, a header with a first text run, and a
present `href` attribute - and a card missing any piece is dropped rather
than returned partially filled; but the fields are never checked for
non-emptiness, so present-but-empty strings survive. -/
theorem scraper_fields_present (c : MdlCard) (r : FlightData)
    (h : processCard c = some r) :
    ∃ a t b s, c.supportingText = some [a, t, b, s] ∧
      parse_time t = some r.time ∧ r.launch_site = s ∧
      ∃ hts, c.headerText = some hts ∧ hts.head? = some r.name ∧
        c.detailsHref = some (some r.details) :=
  processCard_some c r h

/-- Witness for amended claim C5 at a fully populated card. -/
theorem scraper_fields_present_witness :
    processCard sampleCard = some sampleFlight ∧
    ∃ a t b s, sampleCard.supportingText = some [a, t, b, s] ∧
      parse_time t = some sampleFlight.time ∧ sampleFlight.launch_site = s ∧
      ∃ hts, sampleCard.headerText = some hts ∧ hts.head? = some sampleFlight.name ∧
        sampleCard.detailsHref = some (some sampleFlight.details) :=
  ⟨by decide, scraper_fields_present sampleCard sampleFlight (by decide)⟩

/-- Claim C6: a card whose first supporting-text block does not yield
exactly four text runs never reaches the output, and every output record
takes its time from run 1 and its site from run 3 of a four-run block. -/
theorem structural_filter :
    (∀ (c : MdlCard) (runs : List String), c.supportingText = some runs →
        runs.length ≠ 4 → processCard c = none)
  ∧ ∀ (document : List MdlCard) (r : FlightData), r ∈ fetch_launches document →
      ∃ c ∈ document, ∃ a t b s, c.supportingText = some [a, t, b, s] ∧
        parse_time t = some r.time ∧ r.launch_site = s := by
  constructor
  · intro c runs hs hl
    cases hpc : processCard c with
    | none => rfl
    | some r =>
      obtain ⟨a, t, b, s, hsup, -⟩ := processCard_some c r hpc
      rw [hs] at hsup
      injection hsup with h4
      rw [h4] at hl
      exact absurd (by simp) hl
  · intro document r hr
    rw [fetch_launches, List.mem_filterMap] at hr
    obtain ⟨c, hc, hpc⟩ := hr
    obtain ⟨a, t, b, s, hsup, hpt, hsite, _⟩ := processCard_some c r hpc
    exact ⟨c, hc, a, t, b, s, hsup, hpt, hsite⟩

/-- Witness for claim C6 at a card with a three-run supporting block. -/
theorem structural_filter_witness :
    processCard threeRunCard = none :=
  structural_filter.1 threeRunCard ["run0", "run1", "run2"] rfl (by decide)

/-- Claim C7: the time string is parsed with the strict format
`"%a %b %d, %Y %H:%M %Z"` and the naive result is read as UTC - the
trailing timezone token is consumed but never honored as an offset, so
any whitespace-free token (UTC, EST, XYZ, ...) yields the same instant -
and a launch whose time string fails the format is dropped. -/
theorem time_discipline :
    (∀ tz : String, (∀ ch ∈ tz.data, ch.isWhitespace = false) →
        parse_time ("Wed Aug 07, 2024 01:33 " ++ tz) = some 1722994380)
  ∧ ∀ (c : MdlCard) (a t b s : String), c.supportingText = some [a, t, b, s] →
      parse_time t = none → processCard c = none := by
  constructor
  · intro tz htz
    have key : parse_time ("Wed Aug 07, 2024 01:33 " ++ tz)
        = (if ¬ (List.dropWhile (fun c => !c.isWhitespace)
              (List.dropWhile Char.isWhitespace tz.data)).isEmpty then none
           else some (1722994380 : Int)) := rfl
    rw [key, dropWhile_eq_self_of_not htz,
      List.dropWhile_eq_nil_iff.mpr (fun x hx => by simp [htz x hx])]
    simp
  · intro c a t b s hsup hpt
    cases hpc : processCard c with
    | none => rfl
    | some r =>
      obtain ⟨a2, t2, b2, s2, hsup2, hpt2, _⟩ := processCard_some c r hpc
      rw [hsup] at hsup2
      injection hsup2 with hl
      simp only [List.cons.injEq] at hl
      obtain ⟨-, ht2, -, -⟩ := hl
      rw [← ht2, hpt] at hpt2
      exact Option.noConfusion hpt2

/-- Witness for claim C7 at the timezone token `"EST"`. -/
theorem time_discipline_witness :
    parse_time ("Wed Aug 07, 2024 01:33 " ++ "EST") = some 1722994380 :=
  time_discipline.1 "EST" (by decide)

/-- Claim C8: for a launch record and 1-based index `i`, the rendered
card has title `"#{i} | {name.trim()}"`, url
`"https://nextspaceflight.com" ++ details_path`, color `0xFFFFFF`, footer
`"Via NextSpaceflight"`, a "Time" field holding `<t:{unix seconds}:F>`
and a "Launch Site" field holding the site verbatim, both full-width;
`to_embed` is a pure function, so equal inputs give equal cards. -/
theorem render_shape (fd : FlightData) (i : Nat) :
    (fd.to_embed i).title = some ("#" ++ toString i ++ " | " ++ fd.name.trim)
  ∧ (fd.to_embed i).url = some ("https://nextspaceflight.com" ++ fd.details)
  ∧ (fd.to_embed i).color = some 0xFFFFFF
  ∧ (fd.to_embed i).footer = some "Via NextSpaceflight"
  ∧ (fd.to_embed i).fields =
      [ { name := "Time", value := "<t:" ++ toString fd.time ++ ":F>", inline := false },
        { name := "Launch Site", value := fd.launch_site, inline := false } ] :=
  ⟨rfl, rfl, rfl, rfl, rfl⟩

/-- Claim C9: a press that passes the session filter but matches neither
button id leaves the index unchanged, and the loop still dispatches an
edit whose body is the card at that unchanged index. -/
theorem unknown_press_noop (ctx_id : Nat) (pages : List Embed) (i : Nat)
    (cid : String) (rest : List String)
    (hf : sessionFilter ctx_id cid = true)
    (hn : cid ≠ nextButtonId ctx_id) (hp : cid ≠ prevButtonId ctx_id)
    (hi : i < pages.length) :
    pageStep (nextButtonId ctx_id) (prevButtonId ctx_id) pages.length i cid = i
  ∧ runLoop pages (nextButtonId ctx_id) (prevButtonId ctx_id) (cid :: rest) i
      = Option.map (fun p => (pages.get ⟨i, hi⟩ :: p.1, p.2))
          (runLoop pages (nextButtonId ctx_id) (prevButtonId ctx_id) rest i) := by
  have hstep := pageStep_other_arm (nextButtonId ctx_id) (prevButtonId ctx_id)
    pages.length i cid hn hp
  refine ⟨hstep, ?_⟩
  simp only [runLoop, hstep, List.get?_eq_get hi]
  cases hres : runLoop pages (nextButtonId ctx_id) (prevButtonId ctx_id) rest i with
  | none => simp
  | some r =>
    obtain ⟨es, fin⟩ := r
    simp

/-- Witness for claim C9: the filtered but unrecognized press `"1x"`
re-emits the current card and keeps index 0. -/
theorem unknown_press_noop_witness :
    sessionFilter 1 "1x" = true ∧
    runLoop [samplePage] (nextButtonId 1) (prevButtonId 1) ["1x"] 0
      = some ([samplePage], 0) := by
  refine ⟨by decide, ?_⟩
  have h := (unknown_press_noop 1 [samplePage] 0 "1x" []
    (by decide) (by decide) (by decide) (by decide)).2
  simpa [runLoop] using h

/-- Claim C10: when the scrape yields at least one launch, the `fetch`
handler never reaches the out-of-bounds panic branch: `embed_pages[0]`
and every `embed_pages[page_num]` access are in bounds. -/
theorem fetch_accesses_in_bounds (ctx_id : Nat) (document : List MdlCard)
    (presses : List String) (h : fetch_launches document ≠ []) :
    fetchHandler ctx_id document presses ≠ FetchOutcome.panicked := by
  have hpos : 0 < ((fetch_launches document).enum.map
      (fun p => p.2.to_embed (p.1 + 1))).length := by
    rw [List.length_map, List.enum_length]
    exact List.length_pos.mpr h
  obtain ⟨es, fin, hr⟩ := runLoop_isSome
    ((fetch_launches document).enum.map (fun p => p.2.to_embed (p.1 + 1)))
    (nextButtonId ctx_id) (prevButtonId ctx_id) hpos
    (presses.filter (sessionFilter ctx_id)) 0 hpos
  simp only [fetchHandler, List.get?_eq_get hpos, hr]
  intro hcon
  exact FetchOutcome.noConfusion hcon

/-- Witness for claim C10 at a one-card document and a Next press. -/
theorem fetch_accesses_in_bounds_witness :
    fetch_launches [sampleCard] ≠ [] ∧
    fetchHandler 1 [sampleCard] [nextButtonId 1] ≠ FetchOutcome.panicked :=
  ⟨by decide, fetch_accesses_in_bounds 1 [sampleCard] [nextButtonId 1] (by decide)⟩

end Splink
